import Mathlib

/-!
Shallow embedding of the TareaTiendaOnline repository (src/bst.py, src/lst.py,
src/main.py) and verification of the frozen claims about its specification.

Modelling conventions:
* Python `None`-able references become `Option`.
* The BST (`ArbolProductosBST` over `NodoBST`) is the inductive `NodoBST` below,
  with `leaf` standing for a `None` child slot; the class wrapper `insertar` /
  `_insertar` pair collapses to one structural recursion, as does `buscar`.
* The singly linked list (`ListaEnlazadaPedidos` over `NodoPedido`) is a Lean
  `List NodoPedido`: the `siguiente` chain from `cabeza` is exactly a list.
* Python numbers used as prices are modelled as `ℚ` (the claims under test do
  not depend on floating-point rounding), identifiers and quantities as `Int`.
* `datetime` values are modelled by their ISO string; `datetime.fromisoformat`
  is an external library call and is passed in as a function argument
  `fromiso : String → Option String` (`none` models a `ValueError`).
* The MySQL store is modelled as lists of rows; `cursor.lastrowid` becomes an
  explicit `nextId` argument.  Each endpoint becomes a pure function from the
  relevant state to (response, new state).
-/

/-! ### Products (src/bst.py, class Producto) -/

/-- `Producto.__init__` fields; `cantidad` is set to 0 by the constructor and
mutated later when the product is used as an order line item. -/
structure Producto where
  product_id : Int
  nombre : String
  precio : ℚ
  descripcion : String
  stock : Int
  cantidad : Int
deriving DecidableEq, Repr

/-- `Producto(product_id, nombre, precio, descripcion, stock)`: constructor,
`self.cantidad = 0`. -/
def mkProducto (pid : Int) (n : String) (pr : ℚ) (d : String) (st : Int) : Producto :=
  ⟨pid, n, pr, d, st, 0⟩

/-- The dictionary produced by `Producto.to_dict` (and also the shape of a
line-item dict stored in an order): producto_id, nombre, precio, cantidad. -/
structure ItemDict where
  producto_id : Int
  nombre : String
  precio : ℚ
  cantidad : Int
deriving DecidableEq, Repr

/-- `Producto.to_dict`. -/
def Producto.to_dict (p : Producto) : ItemDict :=
  ⟨p.product_id, p.nombre, p.precio, p.cantidad⟩

/-- The five-field dictionary produced by `serializar_arbol_productos` /
`bst_to_list` (and the shape of a row of the `productos` table). -/
structure ProductoDict where
  product_id : Int
  nombre : String
  precio : ℚ
  descripcion : String
  stock : Int
deriving DecidableEq, Repr

/-- The serialized form of a product node (the dict literal built inside
`serializar_arbol_productos`). -/
def Producto.toSerial (p : Producto) : ProductoDict :=
  ⟨p.product_id, p.nombre, p.precio, p.descripcion, p.stock⟩

/-! ### The BST (src/bst.py, NodoBST / ArbolProductosBST) -/

/-- A `NodoBST` reference: `leaf` is Python `None`, `nodo` a node with its
`izquierda` child, `producto`, and `derecha` child. -/
inductive NodoBST where
  | leaf
  | nodo (izquierda : NodoBST) (producto : Producto) (derecha : NodoBST)
deriving DecidableEq, Repr

/-- `ArbolProductosBST.insertar` / `_insertar`: strictly smaller ids go left,
else (greater or equal) right; a new node is attached at the first empty slot. -/
def NodoBST.insertar : NodoBST → Producto → NodoBST
  | .leaf, p => .nodo .leaf p .leaf
  | .nodo l q r, p =>
    if p.product_id < q.product_id then
      .nodo (l.insertar p) q r
    else
      .nodo l q (r.insertar p)

/-- `ArbolProductosBST.buscar` / `_buscar`: equal id found, smaller id left,
otherwise right; `None` (here `none`) when the subtree is empty. -/
def NodoBST.buscar : NodoBST → Int → Option Producto
  | .leaf, _ => none
  | .nodo l q r, k =>
    if k = q.product_id then some q
    else if k < q.product_id then l.buscar k
    else r.buscar k

/-- `serializar_arbol_productos`: in-order traversal producing the serialized
dicts (left, current, right). -/
def serializar_arbol_productos : NodoBST → List ProductoDict
  | .leaf => []
  | .nodo l q r =>
    serializar_arbol_productos l ++ [q.toSerial] ++ serializar_arbol_productos r

/-- Insert a whole list of products one by one (the reload loops in main.py). -/
def insertarTodos (t : NodoBST) (ps : List Producto) : NodoBST :=
  ps.foldl NodoBST.insertar t

/-- Identifiers of the serialized tree, in traversal order. -/
def idsSerial (t : NodoBST) : List Int :=
  (serializar_arbol_productos t).map (·.product_id)

/-- The binary-search-tree invariant the spec states: at every node all left
identifiers are strictly smaller, all right identifiers greater or equal. -/
def esBST : NodoBST → Bool
  | .leaf => true
  | .nodo l q r =>
    ((serializar_arbol_productos l).all fun x => decide (x.product_id < q.product_id)) &&
    ((serializar_arbol_productos r).all fun x => decide (q.product_id ≤ x.product_id)) &&
    esBST l && esBST r

/-! ### Orders (src/lst.py, NodoPedido / ListaEnlazadaPedidos) -/

/-- A line item held inside `NodoPedido.productos`: orders in the linked list
hold either raw dicts or `Producto` objects (main.py branches on
`isinstance(p, dict)`). -/
inductive CachedItem where
  | dict (d : ItemDict)
  | obj (p : Producto)
deriving DecidableEq, Repr

/-- `NodoPedido` minus its `siguiente` pointer (the chain is the list). -/
structure NodoPedido where
  pedido_id : Int
  cliente : String
  fecha : String
  productos : List CachedItem
deriving DecidableEq, Repr

/-- The dict produced by `ListaEnlazadaPedidos.listar_pedidos` for one node. -/
structure PedidoDict where
  pedido_id : Int
  cliente : String
  fecha : String
  productos : List CachedItem
deriving DecidableEq, Repr

/-- The dict literal appended by `listar_pedidos`. -/
def NodoPedido.toDict (n : NodoPedido) : PedidoDict :=
  ⟨n.pedido_id, n.cliente, n.fecha, n.productos⟩

/-- `ListaEnlazadaPedidos.agregar_pedido`: append a new node at the tail. -/
def agregar_pedido (l : List NodoPedido) (pid : Int) (cliente fecha : String)
    (productos : List CachedItem) : List NodoPedido :=
  l ++ [⟨pid, cliente, fecha, productos⟩]

/-- `ListaEnlazadaPedidos.buscar_pedido`: first node with the given id. -/
def buscar_pedido : List NodoPedido → Int → Option NodoPedido
  | [], _ => none
  | n :: rest, k => if n.pedido_id = k then some n else buscar_pedido rest k

/-- `ListaEnlazadaPedidos.eliminar_pedido`: splice out the first node with the
given id; returns whether a removal occurred together with the new chain. -/
def eliminar_pedido : List NodoPedido → Int → Bool × List NodoPedido
  | [], _ => (false, [])
  | n :: rest, k =>
    if n.pedido_id = k then (true, rest)
    else
      let res := eliminar_pedido rest k
      (res.1, n :: res.2)

/-- `ListaEnlazadaPedidos.listar_pedidos`. -/
def listar_pedidos (l : List NodoPedido) : List PedidoDict :=
  l.map NodoPedido.toDict

/-- The field updates done inside `actualizar_pedido` on the found node:
`if cliente: ...`, `if fecha: ...`, `if productos is not None: ...`.
Note that `cliente`/`fecha` are tested for Python truthiness (an explicitly
supplied empty string is falsy and leaves the field alone) while `productos`
is tested against `None` only. -/
def aplicarCampos (n : NodoPedido) (c f : Option String)
    (p : Option (List CachedItem)) : NodoPedido :=
  { n with
    cliente := match c with
      | some s => if s = "" then n.cliente else s
      | none => n.cliente
    fecha := match f with
      | some s => if s = "" then n.fecha else s
      | none => n.fecha
    productos := match p with
      | some ps => ps
      | none => n.productos }

/-- `ListaEnlazadaPedidos.actualizar_pedido`: find the first node with the id,
update the provided fields in place, report whether it was found. -/
def actualizar_pedido : List NodoPedido → Int → Option String → Option String →
    Option (List CachedItem) → Bool × List NodoPedido
  | [], _, _, _, _ => (false, [])
  | n :: rest, k, c, f, p =>
    if n.pedido_id = k then (true, aplicarCampos n c f p :: rest)
    else
      let res := actualizar_pedido rest k c f p
      (res.1, n :: res.2)

/-- Append a batch of orders one by one (field by field, as each caller of
`agregar_pedido` does). -/
def agregarTodos (l : List NodoPedido) (xs : List NodoPedido) : List NodoPedido :=
  xs.foldl (fun acc n => agregar_pedido acc n.pedido_id n.cliente n.fecha n.productos) l

/-! ### The relational store (external collaborator of src/main.py) -/

/-- A row of the `productos` table (`SELECT * FROM productos`). -/
structure ProductoRow where
  producto_id : Int
  nombre : String
  precio : ℚ
  descripcion : String
  stock : Int
deriving DecidableEq, Repr

/-- A row of the `pedidos` table; `fecha_pedido` is a datetime, modelled by
its ISO string. -/
structure OrderRow where
  pedido_id : Int
  cliente : String
  fecha_pedido : String
deriving DecidableEq, Repr

/-- A row of the `pedido_productos` line-item table. -/
structure LineItemRow where
  pedido_id : Int
  producto_id : Int
  cantidad : Int
deriving DecidableEq, Repr

/-- The backing store used by the order endpoints. -/
structure Store where
  productos : List ProductoRow
  pedidos : List OrderRow
  pedido_productos : List LineItemRow
deriving DecidableEq, Repr

/-- The `Producto(...)` constructed from a `productos` row in the reload loops
of `get_product_bst` / `export_data`. -/
def rowToProducto (r : ProductoRow) : Producto :=
  mkProducto r.producto_id r.nombre r.precio r.descripcion r.stock

/-- The `Producto(...)` constructed from a serialized dict in `import_data`. -/
def dictToProducto (d : ProductoDict) : Producto :=
  mkProducto d.product_id d.nombre d.precio d.descripcion d.stock

/-! ### GET /productsbst/{product_id} (main.py, get_product_bst) -/

/-- `get_product_bst`: fetch the whole `productos` table, insert every row into
the resident (not pre-cleared) BST, then `buscar`.  The first component is the
JSON body of the 200 response (`none` models the 404 "Producto no encontrado en
BST"); the second is the BST left in process memory. -/
def get_product_bst (tree : NodoBST) (store : List ProductoRow) (pid : Int) :
    Option ProductoDict × NodoBST :=
  let tree' := insertarTodos tree (store.map rowToProducto)
  match tree'.buscar pid with
  | none => (none, tree')
  | some p => (some p.toSerial, tree')

/-! ### POST /products (main.py, create_product) -/

/-- A JSON request body for product creation.  The outer `Option` is key
presence in the dict (`body["x"]` raises `KeyError` when `none`); the inner
`Option` is JSON `null`. -/
structure ProductBody where
  nombre : Option (Option String)
  precio : Option (Option ℚ)
  descripcion : Option (Option String)
  stock : Option (Option Int)
deriving DecidableEq, Repr

/-- Outcome of `create_product`: an uncaught `KeyError` on a missing body key
(FastAPI turns this into a 500), the 400 "Faltan datos obligatorios" response,
or the 200 success response. -/
inductive CreateResult where
  | keyError (field : String)
  | badRequest
  | ok
deriving DecidableEq, Repr

/-- Python falsiness of an optional string (`not nombre`): `None` and `""` are
falsy. -/
def strFalsy : Option String → Bool
  | none => true
  | some s => s = ""

/-- `create_product`: read the four body fields with `body[...]` (KeyError when
absent), validate `stock is None or not nombre or precio is None or not
descripcion`, then insert the row into the store (`lastrowid` modelled by
`nextId`) and the product into the resident BST. -/
def create_product (body : ProductBody) (tree : NodoBST)
    (store : List ProductoRow) (nextId : Int) :
    CreateResult × NodoBST × List ProductoRow :=
  match body.nombre with
  | none => (.keyError "nombre", tree, store)
  | some nombre =>
    match body.precio with
    | none => (.keyError "precio", tree, store)
    | some precio =>
      match body.descripcion with
      | none => (.keyError "descripcion", tree, store)
      | some descripcion =>
        match body.stock with
        | none => (.keyError "stock", tree, store)
        | some stock =>
          if stock = none || strFalsy nombre || precio = none || strFalsy descripcion then
            (.badRequest, tree, store)
          else
            let row : ProductoRow :=
              ⟨nextId, nombre.getD "", precio.getD 0, descripcion.getD "", stock.getD 0⟩
            let nuevo := mkProducto nextId (nombre.getD "") (precio.getD 0)
              (descripcion.getD "") (stock.getD 0)
            (.ok, tree.insertar nuevo, store ++ [row])

/-! ### GET /pedidos/{pedido_id} (main.py, get_pedido) -/

/-- The JSON body of a successful `get_pedido` response. -/
structure PedidoResponse where
  pedido_id : Int
  cliente : String
  fecha_pedido : String
  productos : List ItemDict
  total : ℚ
deriving DecidableEq, Repr

/-- Result of `get_pedido`: the 404 or the 200 body. -/
inductive GetPedidoResult where
  | notFound
  | ok (r : PedidoResponse)
deriving DecidableEq, Repr

/-- The store-side JOIN of `pedido_productos` with `productos` for one order:
for each line-item row of the order, the joined (producto_id, cantidad, nombre,
precio) tuple, dropped when no product row matches (INNER JOIN). -/
def joinLineItems (s : Store) (pid : Int) : List (Int × Int × String × ℚ) :=
  (s.pedido_productos.filter fun r => r.pedido_id = pid).filterMap fun r =>
    (s.productos.find? fun p => p.producto_id = r.producto_id).map fun p =>
      (r.producto_id, r.cantidad, p.nombre, p.precio)

/-- The in-place mutation `pedido_ll.productos = productos` on the node found
by `buscar_pedido` (the first node with the id). -/
def setProductosFirst : List NodoPedido → Int → List CachedItem → List NodoPedido
  | [], _, _ => []
  | n :: rest, k, ps =>
    if n.pedido_id = k then { n with productos := ps } :: rest
    else n :: setProductosFirst rest k ps

/-- The normalization loop of the cache-hit path of `get_pedido`: a raw dict is
rebuilt as a `Producto` with `descripcion=""`, `stock=0` and its `cantidad`;
an object is kept as is. -/
def normalizarItem : CachedItem → Producto
  | .dict d => { mkProducto d.producto_id d.nombre d.precio "" 0 with cantidad := d.cantidad }
  | .obj p => p

/-- `get_pedido`: check the linked list first; on a hit normalize the line
items to `Producto` objects (writing them back into the node), recompute the
total and answer from memory.  On a miss fetch the order row, JOIN its line
items, build `Producto`s with `cantidad`, compute the total, append the order
(with object line items) to the linked list and answer. -/
def get_pedido (cache : List NodoPedido) (s : Store) (pid : Int) :
    GetPedidoResult × List NodoPedido :=
  match buscar_pedido cache pid with
  | some node =>
    let productos := node.productos.map normalizarItem
    let cache' := setProductosFirst cache pid (productos.map CachedItem.obj)
    let total := (productos.map fun p => p.precio * (p.cantidad : ℚ)).sum
    (.ok ⟨node.pedido_id, node.cliente, node.fecha,
      productos.map Producto.to_dict, total⟩, cache')
  | none =>
    match s.pedidos.find? fun r => r.pedido_id = pid with
    | none => (.notFound, cache)
    | some row =>
      let productos := (joinLineItems s pid).map fun x =>
        { mkProducto x.1 x.2.2.1 x.2.2.2 "" 0 with cantidad := x.2.1 }
      let total := (productos.map fun p => p.precio * (p.cantidad : ℚ)).sum
      let cache' := agregar_pedido cache row.pedido_id row.cliente row.fecha_pedido
        (productos.map CachedItem.obj)
      (.ok ⟨row.pedido_id, row.cliente, row.fecha_pedido,
        productos.map Producto.to_dict, total⟩, cache')

/-! ### PUT /pedidos/{pedido_id} (main.py, update_pedido) -/

/-- A line item of the request body of `create_pedido`/`update_pedido`:
`p.get("producto_id")` and `p.get("cantidad", 1)`. -/
structure ReqItem where
  producto_id : Option Int
  cantidad : Option Int
deriving DecidableEq, Repr

/-- Python truthiness of `body.get(...)` for a string field. -/
def truthyOpt : Option String → Bool
  | none => false
  | some s => !(s = "")

/-- `arbol_productos.buscar(p.get("producto_id"))` where the key may be Python
`None`: comparing `None < int` raises `TypeError` on a non-empty tree (outer
`none`); on an empty tree the lookup just misses. -/
def buscarKey : NodoBST → Option Int → Option (Option Producto)
  | t, some k => some (t.buscar k)
  | .leaf, none => some none
  | .nodo _ _ _, none => none

/-- The loop of `update_pedido` that builds `productos_lista` from the resident
BST: items whose product is not found are silently dropped; an item with a
`None` id against a non-empty tree raises `TypeError` (outer `none`). -/
def resolveItems (tree : NodoBST) : List ReqItem → Option (List CachedItem)
  | [] => some []
  | p :: rest =>
    match buscarKey tree p.producto_id with
    | none => none
    | some none => resolveItems tree rest
    | some (some prod) =>
      (resolveItems tree rest).map fun l =>
        .dict ⟨p.producto_id.getD 0, prod.nombre, prod.precio, p.cantidad.getD 1⟩ :: l

/-- Outcome of `update_pedido`: 400 with its message, or the 200 response. -/
inductive UpdateResult where
  | badRequest (msg : String)
  | ok
deriving DecidableEq, Repr

/-- `update_pedido`: validate `cliente`/`fecha_pedido` truthiness, parse the
date, UPDATE the order row, and when `productos` is non-empty DELETE and
re-INSERT the order's line-item rows; then resolve each request item through
the resident BST and write the resolved list into the cached order via
`actualizar_pedido`.  The outer `Option` is `none` on an uncaught `TypeError`
from a `None` product id. -/
def update_pedido (fromiso : String → Option String) (tree : NodoBST)
    (cache : List NodoPedido) (store : Store) (pid : Int)
    (cliente fecha : Option String) (productos : List ReqItem) :
    Option (UpdateResult × List NodoPedido × Store) :=
  if !truthyOpt cliente || !truthyOpt fecha then
    some (.badRequest "Faltan datos obligatorios", cache, store)
  else
    match fromiso (fecha.getD "") with
    | none => some (.badRequest "Formato de fecha incorrecto", cache, store)
    | some fechaIso =>
      let store1 : Store :=
        { store with pedidos := store.pedidos.map fun r =>
            if r.pedido_id = pid then
              { r with cliente := cliente.getD "", fecha_pedido := fechaIso }
            else r }
      let store2 : Store :=
        if productos.isEmpty then store1
        else
          { store1 with pedido_productos :=
              (store1.pedido_productos.filter fun r => !(r.pedido_id = pid)) ++
              productos.filterMap fun p =>
                p.producto_id.map fun i => ⟨pid, i, p.cantidad.getD 1⟩ }
      match resolveItems tree productos with
      | none => none
      | some productos_lista =>
        let res := actualizar_pedido cache pid cliente (some fechaIso) (some productos_lista)
        some (.ok, res.2, store2)

/-! ### GET /export_data and POST /import_data (main.py) -/

/-- `export_data`: clear the resident BST, reload every `productos` row into
it, and serialize the tree in order (the list written to productos.json). -/
def export_data (store : List ProductoRow) : List ProductoDict :=
  serializar_arbol_productos (insertarTodos .leaf (store.map rowToProducto))

/-- `import_data`: clear the resident BST and insert every entry of the file
in sequence (cache-only, the store is untouched). -/
def import_data (ds : List ProductoDict) : NodoBST :=
  insertarTodos .leaf (ds.map dictToProducto)

/-! ### Lemmas about the BST -/

theorem serializar_insertar_perm (t : NodoBST) (p : Producto) :
    (serializar_arbol_productos (t.insertar p)).Perm
      (p.toSerial :: serializar_arbol_productos t) := by
  induction t with
  | leaf => simp [NodoBST.insertar, serializar_arbol_productos]
  | nodo l q r ihl ihr =>
    by_cases h : p.product_id < q.product_id
    · simp only [NodoBST.insertar, if_pos h, serializar_arbol_productos, List.append_assoc]
      exact ihl.append_right _
    · simp only [NodoBST.insertar, if_neg h, serializar_arbol_productos]
      exact ((List.Perm.append_left _ ihr).trans List.perm_middle)

theorem mem_serializar_insertar {x : ProductoDict} (t : NodoBST) (p : Producto) :
    x ∈ serializar_arbol_productos (t.insertar p) ↔
      x = p.toSerial ∨ x ∈ serializar_arbol_productos t := by
  rw [(serializar_insertar_perm t p).mem_iff]
  simp

theorem esBST_insertar (t : NodoBST) (p : Producto) (h : esBST t = true) :
    esBST (t.insertar p) = true := by
  induction t with
  | leaf => simp [NodoBST.insertar, esBST, serializar_arbol_productos]
  | nodo l q r ihl ihr =>
    simp only [esBST, Bool.and_eq_true, List.all_eq_true, decide_eq_true_eq] at h
    obtain ⟨⟨⟨hl, hr⟩, hbl⟩, hbr⟩ := h
    by_cases hcmp : p.product_id < q.product_id
    · simp only [NodoBST.insertar, if_pos hcmp, esBST, Bool.and_eq_true,
        List.all_eq_true, decide_eq_true_eq]
      refine ⟨⟨⟨?_, hr⟩, ihl hbl⟩, hbr⟩
      intro x hx
      rcases (mem_serializar_insertar l p).1 hx with h1 | h1
      · subst h1; simpa [Producto.toSerial] using hcmp
      · exact hl x h1
    · simp only [NodoBST.insertar, if_neg hcmp, esBST, Bool.and_eq_true,
        List.all_eq_true, decide_eq_true_eq]
      refine ⟨⟨⟨hl, ?_⟩, hbl⟩, ihr hbr⟩
      intro x hx
      rcases (mem_serializar_insertar r p).1 hx with h1 | h1
      · subst h1; simpa [Producto.toSerial] using le_of_not_lt hcmp
      · exact hr x h1

theorem sorted_idsSerial (t : NodoBST) (h : esBST t = true) :
    List.Sorted (· ≤ ·) (idsSerial t) := by
  induction t with
  | leaf => simp [idsSerial, serializar_arbol_productos]
  | nodo l q r ihl ihr =>
    simp only [esBST, Bool.and_eq_true, List.all_eq_true, decide_eq_true_eq] at h
    obtain ⟨⟨⟨hl, hr⟩, hbl⟩, hbr⟩ := h
    have hml : idsSerial (.nodo l q r) = idsSerial l ++ q.product_id :: idsSerial r := by
      simp [idsSerial, serializar_arbol_productos, Producto.toSerial]
    rw [hml]
    refine List.pairwise_append.mpr ⟨ihl hbl, ?_, ?_⟩
    · refine List.pairwise_cons.mpr ⟨?_, ihr hbr⟩
      intro b hb
      rcases List.mem_map.1 hb with ⟨y, hy, rfl⟩
      exact hr y hy
    · intro a ha b hb
      rcases List.mem_map.1 ha with ⟨x, hx, rfl⟩
      rcases List.mem_cons.1 hb with rfl | hb
      · exact le_of_lt (hl x hx)
      · rcases List.mem_map.1 hb with ⟨y, hy, rfl⟩
        exact le_of_lt (lt_of_lt_of_le (hl x hx) (hr y hy))

theorem buscar_eq_some_id (t : NodoBST) (k : Int) (p : Producto)
    (h : t.buscar k = some p) : p.product_id = k := by
  induction t with
  | leaf => simp [NodoBST.buscar] at h
  | nodo l q r ihl ihr =>
    simp only [NodoBST.buscar] at h
    by_cases h1 : k = q.product_id
    · rw [if_pos h1] at h
      cases h
      exact h1.symm
    · rw [if_neg h1] at h
      by_cases h2 : k < q.product_id
      · rw [if_pos h2] at h; exact ihl h
      · rw [if_neg h2] at h; exact ihr h

theorem buscar_isSome_iff (t : NodoBST) (k : Int) (h : esBST t = true) :
    (t.buscar k).isSome = true ↔ k ∈ idsSerial t := by
  induction t with
  | leaf => simp [NodoBST.buscar, idsSerial, serializar_arbol_productos]
  | nodo l q r ihl ihr =>
    simp only [esBST, Bool.and_eq_true, List.all_eq_true, decide_eq_true_eq] at h
    obtain ⟨⟨⟨hl, hr⟩, hbl⟩, hbr⟩ := h
    have hmem : k ∈ idsSerial (.nodo l q r) ↔
        k ∈ idsSerial l ∨ k = q.product_id ∨ k ∈ idsSerial r := by
      simp [idsSerial, serializar_arbol_productos, Producto.toSerial]
    by_cases h1 : k = q.product_id
    · subst h1
      simp [NodoBST.buscar, hmem]
    · by_cases h2 : k < q.product_id
      · rw [NodoBST.buscar, if_neg h1, if_pos h2, ihl hbl, hmem]
        constructor
        · exact fun hk => Or.inl hk
        · rintro (hk | hk | hk)
          · exact hk
          · exact absurd hk h1
          · rcases List.mem_map.1 hk with ⟨y, hy, rfl⟩
            exact absurd h2 (not_lt.mpr (hr y hy))
      · rw [NodoBST.buscar, if_neg h1, if_neg h2, ihr hbr, hmem]
        constructor
        · exact fun hk => Or.inr (Or.inr hk)
        · rintro (hk | hk | hk)
          · rcases List.mem_map.1 hk with ⟨y, hy, rfl⟩
            exact absurd (hl y hy) h2
          · exact absurd hk h1
          · exact hk

theorem serializar_insertarTodos_perm (ps : List Producto) (t : NodoBST) :
    (serializar_arbol_productos (insertarTodos t ps)).Perm
      (ps.map Producto.toSerial ++ serializar_arbol_productos t) := by
  induction ps generalizing t with
  | nil => simp [insertarTodos]
  | cons p ps ih =>
    simp only [insertarTodos, List.foldl_cons, List.map_cons]
    have h1 := ih (t.insertar p)
    simp only [insertarTodos] at h1
    exact h1.trans ((List.Perm.append_left _ (serializar_insertar_perm t p)).trans
      List.perm_middle)

theorem esBST_insertarTodos (ps : List Producto) (t : NodoBST) (h : esBST t = true) :
    esBST (insertarTodos t ps) = true := by
  induction ps generalizing t with
  | nil => exact h
  | cons p ps ih =>
    simp only [insertarTodos, List.foldl_cons]
    have h1 := ih (t.insertar p) (esBST_insertar t p h)
    simpa [insertarTodos] using h1

theorem serializar_insertar_append (t : NodoBST) (p : Producto)
    (h : ∀ x ∈ serializar_arbol_productos t, x.product_id ≤ p.product_id) :
    serializar_arbol_productos (t.insertar p) =
      serializar_arbol_productos t ++ [p.toSerial] := by
  induction t with
  | leaf => simp [NodoBST.insertar, serializar_arbol_productos]
  | nodo l q r ihl ihr =>
    have hq : q.product_id ≤ p.product_id := by
      have := h q.toSerial (by simp [serializar_arbol_productos])
      simpa [Producto.toSerial] using this
    simp only [NodoBST.insertar, if_neg (not_lt.mpr hq), serializar_arbol_productos]
    rw [ihr fun x hx => h x (by simp [serializar_arbol_productos, hx])]
    simp [List.append_assoc]

theorem toSerial_dictToProducto (d : ProductoDict) :
    (dictToProducto d).toSerial = d := rfl

theorem serializar_import_sorted (L : List ProductoDict)
    (h : List.Sorted (· ≤ ·) (L.map (·.product_id))) :
    serializar_arbol_productos (insertarTodos .leaf (L.map dictToProducto)) = L := by
  induction L using List.reverseRecOn with
  | nil => simp [insertarTodos, serializar_arbol_productos]
  | append_singleton L x ih =>
    rw [List.map_append] at h
    obtain ⟨h1, _, h3⟩ := List.pairwise_append.1 h
    have hfold : insertarTodos .leaf ((L ++ [x]).map dictToProducto) =
        (insertarTodos .leaf (L.map dictToProducto)).insertar (dictToProducto x) := by
      simp [insertarTodos, List.foldl_append]
    rw [hfold, serializar_insertar_append, ih h1, toSerial_dictToProducto]
    intro y hy
    rw [ih h1] at hy
    exact h3 y.product_id (List.mem_map.2 ⟨y, hy, rfl⟩) x.product_id (by simp)

/-! ### Claims about the product index (C4, C5, C6, C7) -/

/-- Products with identifiers [5, 2, 8, 1], the concrete scenario of the spec. -/
def ejemploC4 : List Producto :=
  [mkProducto 5 "p5" 1 "d" 1, mkProducto 2 "p2" 1 "d" 1,
   mkProducto 8 "p8" 1 "d" 1, mkProducto 1 "p1" 1 "d" 1]

/-- Claim C4: for every finite sequence of products inserted into an initially
empty ProductIndex, the full in-order traversal yields all inserted products
(as a permutation of their serialized forms) with identifiers in non-decreasing
order; in particular inserting ids [5, 2, 8, 1] yields ids [1, 2, 5, 8]. -/
theorem c4_inorder_sorted :
    (∀ ps : List Producto,
      List.Sorted (· ≤ ·) (idsSerial (insertarTodos .leaf ps)) ∧
      (serializar_arbol_productos (insertarTodos .leaf ps)).Perm
        (ps.map Producto.toSerial)) ∧
    idsSerial (insertarTodos .leaf ejemploC4) = [1, 2, 5, 8] := by
  constructor
  · intro ps
    refine ⟨sorted_idsSerial _ (esBST_insertarTodos ps .leaf rfl), ?_⟩
    have h := serializar_insertarTodos_perm ps .leaf
    simpa [serializar_arbol_productos] using h
  · decide

/-- Claim C6: every tree built by inserts from the empty ProductIndex satisfies
the binary-search-tree invariant (left strictly smaller, right greater or
equal), and one insert into any tree satisfying the invariant preserves it. -/
theorem c6_bst_invariant :
    (∀ ps : List Producto, esBST (insertarTodos .leaf ps) = true) ∧
    ∀ (t : NodoBST) (p : Producto), esBST t = true → esBST (t.insertar p) = true :=
  ⟨fun ps => esBST_insertarTodos ps .leaf rfl, esBST_insertar⟩

/-- Witness for C6 at a concrete tree and product. -/
theorem c6_witness :
    esBST ((NodoBST.leaf.insertar (mkProducto 5 "a" 1 "d" 1)).insertar
      (mkProducto 2 "b" 1 "d" 1)) = true :=
  c6_bst_invariant.2 (NodoBST.leaf.insertar (mkProducto 5 "a" 1 "d" 1))
    (mkProducto 2 "b" 1 "d" 1) (by decide)

/-- Claim C5: for every sequence of products inserted into the ProductIndex and
every inserted product P, `buscar P.product_id` returns a product with matching
identifier, and every identifier never inserted is reported absent (`none`). -/
theorem c5_find_correct (ps : List Producto) (P : Producto) :
    (P ∈ ps → ∃ q, (insertarTodos .leaf ps).buscar P.product_id = some q ∧
        q.product_id = P.product_id) ∧
    ∀ k : Int, k ∉ ps.map (·.product_id) → (insertarTodos .leaf ps).buscar k = none := by
  have hbst := esBST_insertarTodos ps .leaf rfl
  have hids : (idsSerial (insertarTodos .leaf ps)).Perm (ps.map (·.product_id)) := by
    have h := (serializar_insertarTodos_perm ps .leaf).map (fun x => x.product_id)
    simpa [idsSerial, serializar_arbol_productos, List.map_map, Function.comp,
      Producto.toSerial] using h
  constructor
  · intro hP
    have hmem : P.product_id ∈ idsSerial (insertarTodos .leaf ps) :=
      hids.mem_iff.2 (List.mem_map.2 ⟨P, hP, rfl⟩)
    have hsome := (buscar_isSome_iff _ _ hbst).2 hmem
    rcases Option.isSome_iff_exists.1 hsome with ⟨q, hq⟩
    exact ⟨q, hq, buscar_eq_some_id _ _ _ hq⟩
  · intro k hk
    have hns : ¬ ((insertarTodos .leaf ps).buscar k).isSome = true := by
      rw [buscar_isSome_iff _ _ hbst]
      exact fun hm => hk (hids.mem_iff.1 hm)
    cases hcase : (insertarTodos .leaf ps).buscar k with
    | none => rfl
    | some q => rw [hcase] at hns; simp at hns

/-- Two concrete products for the C5 witness. -/
def ejemploC5 : List Producto := [mkProducto 1 "a" 2 "d" 3, mkProducto 4 "b" 5 "d" 6]

/-- Witness for C5: id 1 was inserted and is found; id 3 never was and misses. -/
theorem c5_witness :
    (∃ q, (insertarTodos .leaf ejemploC5).buscar (mkProducto 1 "a" 2 "d" 3).product_id
        = some q ∧ q.product_id = (mkProducto 1 "a" 2 "d" 3).product_id) ∧
    (insertarTodos .leaf ejemploC5).buscar 3 = none :=
  ⟨(c5_find_correct ejemploC5 (mkProducto 1 "a" 2 "d" 3)).1 (by decide),
   (c5_find_correct ejemploC5 (mkProducto 1 "a" 2 "d" 3)).2 3 (by decide)⟩

/-- Claim C7: exporting the catalog (clear, reload from the store, serialize in
order) and importing that sequence back (clear, insert in order) reproduces an
index whose ascending traversal equals the exported sequence exactly. -/
theorem c7_export_import_roundtrip (store : List ProductoRow) :
    serializar_arbol_productos (import_data (export_data store)) = export_data store := by
  simp only [import_data]
  apply serializar_import_sorted
  have h := sorted_idsSerial (insertarTodos .leaf (store.map rowToProducto))
    (esBST_insertarTodos _ .leaf rfl)
  simpa [idsSerial, export_data] using h

/-! ### Claim C1: lookup-by-id through the CatalogSyncPolicy -/

/-- A resident index that already holds product 1 (such a state arises from a
prior `create_product` or a prior reload). -/
def arbolResidual : NodoBST := NodoBST.leaf.insertar (mkProducto 1 "Laptop" 10 "gaming" 3)

/-- Claim C1 is false as stated: with product 1 resident in the index and a
store snapshot that does NOT contain id 1 (here the empty table), the lookup
still reports the product as found, so "signals not-found whenever the id is
absent from the store" fails — the index is not pre-cleared. -/
theorem c1_counterexample :
    (get_product_bst arbolResidual [] 1).1.isSome = true ∧
    (([] : List ProductoRow).map (·.producto_id)).all (fun i => !(i = 1)) = true := by
  decide

/-- Claim C1 amended: the lookup inserts the whole store snapshot into the
not-pre-cleared resident index and searches it, and it reports found iff the
id is present in the prior resident index OR in the store snapshot (so
"not found" is signalled exactly when the id is absent from both). -/
theorem c1_lookup_amended (tree : NodoBST) (store : List ProductoRow) (pid : Int)
    (h : esBST tree = true) :
    ((get_product_bst tree store pid).1.isSome = true ↔
      pid ∈ idsSerial tree ∨ pid ∈ store.map (·.producto_id)) ∧
    (get_product_bst tree store pid).2 = insertarTodos tree (store.map rowToProducto) := by
  have hbst := esBST_insertarTodos (store.map rowToProducto) tree h
  have hperm := (serializar_insertarTodos_perm (store.map rowToProducto) tree).map
    (fun x => x.product_id)
  have hids : pid ∈ idsSerial (insertarTodos tree (store.map rowToProducto)) ↔
      pid ∈ store.map (·.producto_id) ∨ pid ∈ idsSerial tree := by
    simp only [idsSerial]
    rw [hperm.mem_iff]
    simp [idsSerial, List.map_map, Function.comp, Producto.toSerial, rowToProducto,
      mkProducto]
  have hfst : (get_product_bst tree store pid).1.isSome
      = ((insertarTodos tree (store.map rowToProducto)).buscar pid).isSome := by
    cases hb : (insertarTodos tree (store.map rowToProducto)).buscar pid <;>
      simp [get_product_bst, hb]
  refine ⟨?_, ?_⟩
  · rw [hfst, buscar_isSome_iff _ pid hbst, hids]
    tauto
  · cases hb : (insertarTodos tree (store.map rowToProducto)).buscar pid <;>
      simp [get_product_bst, hb]

/-- Witness for C1 (amended): with an empty resident index and the store
holding product 1, the lookup finds id 1. -/
theorem c1_witness :
    (get_product_bst NodoBST.leaf [⟨1, "Laptop", 10, "g", 3⟩] 1).1.isSome = true :=
  (c1_lookup_amended NodoBST.leaf [⟨1, "Laptop", 10, "g", 3⟩] 1 rfl).1.2
    (Or.inr (by decide))

/-! ### Lemmas about the order list -/

theorem buscar_pedido_eq_none_iff (l : List NodoPedido) (k : Int) :
    buscar_pedido l k = none ↔ ∀ n ∈ l, n.pedido_id ≠ k := by
  induction l with
  | nil => simp [buscar_pedido]
  | cons n rest ih =>
    by_cases h : n.pedido_id = k
    · simp [buscar_pedido, h]
    · simp [buscar_pedido, h, ih]

theorem aplicarCampos_pedido_id (n : NodoPedido) (c f : Option String)
    (p : Option (List CachedItem)) :
    (aplicarCampos n c f p).pedido_id = n.pedido_id := rfl

theorem actualizar_fst (l : List NodoPedido) (k : Int) (c f : Option String)
    (p : Option (List CachedItem)) :
    (actualizar_pedido l k c f p).1 = l.any fun n => decide (n.pedido_id = k) := by
  induction l with
  | nil => simp [actualizar_pedido]
  | cons n rest ih =>
    by_cases h : n.pedido_id = k
    · simp [actualizar_pedido, h]
    · simp [actualizar_pedido, h, ih]

theorem actualizar_not_found (l : List NodoPedido) (k : Int) (c f : Option String)
    (p : Option (List CachedItem)) (h : ∀ n ∈ l, n.pedido_id ≠ k) :
    actualizar_pedido l k c f p = (false, l) := by
  induction l with
  | nil => rfl
  | cons n rest ih =>
    have hn : n.pedido_id ≠ k := h n (by simp)
    simp only [actualizar_pedido, if_neg hn]
    rw [ih fun m hm => h m (by simp [hm])]

theorem actualizar_found (l₁ : List NodoPedido) (n : NodoPedido) (l₂ : List NodoPedido)
    (k : Int) (c f : Option String) (p : Option (List CachedItem))
    (h₁ : ∀ m ∈ l₁, m.pedido_id ≠ k) (h₂ : n.pedido_id = k) :
    actualizar_pedido (l₁ ++ n :: l₂) k c f p = (true, l₁ ++ aplicarCampos n c f p :: l₂) := by
  induction l₁ with
  | nil => simp [actualizar_pedido, h₂]
  | cons m rest ih =>
    have hm : m.pedido_id ≠ k := h₁ m (by simp)
    simp only [List.cons_append, actualizar_pedido, if_neg hm, List.append_eq]
    rw [ih fun x hx => h₁ x (by simp [hx])]

theorem buscar_actualizar (l : List NodoPedido) (k : Int) (c f : Option String)
    (p : Option (List CachedItem)) (n : NodoPedido) (h : buscar_pedido l k = some n) :
    buscar_pedido (actualizar_pedido l k c f p).2 k = some (aplicarCampos n c f p) := by
  induction l with
  | nil => simp [buscar_pedido] at h
  | cons m rest ih =>
    by_cases hm : m.pedido_id = k
    · rw [buscar_pedido, if_pos hm] at h
      cases h
      simp only [actualizar_pedido, if_pos hm]
      rw [buscar_pedido, if_pos (by rw [aplicarCampos_pedido_id]; exact hm)]
    · rw [buscar_pedido, if_neg hm] at h
      simp only [actualizar_pedido, if_neg hm]
      rw [buscar_pedido, if_neg hm]
      exact ih h

theorem eliminar_fst (l : List NodoPedido) (k : Int) :
    (eliminar_pedido l k).1 = l.any fun n => decide (n.pedido_id = k) := by
  induction l with
  | nil => simp [eliminar_pedido]
  | cons n rest ih =>
    by_cases h : n.pedido_id = k
    · simp [eliminar_pedido, h]
    · simp [eliminar_pedido, h, ih]

theorem eliminar_nodup (l : List NodoPedido) (k : Int)
    (h : (l.map (·.pedido_id)).Nodup) :
    (eliminar_pedido l k).2 = l.filter fun n => !decide (n.pedido_id = k) := by
  induction l with
  | nil => rfl
  | cons n rest ih =>
    simp only [List.map_cons, List.nodup_cons] at h
    obtain ⟨hn, hrest⟩ := h
    by_cases hk : n.pedido_id = k
    · simp only [eliminar_pedido, if_pos hk, List.filter_cons, hk]
      have hfil : rest.filter (fun m => !decide (m.pedido_id = k)) = rest := by
        apply List.filter_eq_self.mpr
        intro m hm
        simp only [Bool.not_eq_true', decide_eq_false_iff_not]
        intro hmk
        exact hn (List.mem_map.2 ⟨m, hm, by rw [hmk, hk]⟩)
      simp [hfil]
    · simp only [eliminar_pedido, if_neg hk]
      rw [List.filter_cons_of_pos (by simp [hk]), ih hrest]

theorem agregar_pedido_eta (l : List NodoPedido) (n : NodoPedido) :
    agregar_pedido l n.pedido_id n.cliente n.fecha n.productos = l ++ [n] := rfl

theorem agregarTodos_eq (l xs : List NodoPedido) : agregarTodos l xs = l ++ xs := by
  induction xs generalizing l with
  | nil => simp [agregarTodos]
  | cons n rest ih =>
    simp only [agregarTodos, List.foldl_cons]
    have h2 := ih (l ++ [n])
    simp only [agregarTodos] at h2
    rw [agregar_pedido_eta, h2]
    simp

/-! ### Claim C2: partial in-place update of an order -/

/-- An order whose client is "Ana". -/
def pedidoPrueba : NodoPedido := ⟨1, "Ana", "2025-12-08", []⟩

/-- Claim C2 is false as stated: an explicitly supplied empty client string is
Python-falsy, so `actualizar_pedido(1, cliente="")` does NOT overwrite the
client (the claim says every provided field overwrites, an explicitly-empty
string included).  The node keeps client "Ana" and the call still returns
True. -/
theorem c2_counterexample :
    actualizar_pedido [pedidoPrueba] 1 (some "") none none = (true, [pedidoPrueba]) ∧
    pedidoPrueba.cliente = "Ana" := by
  decide

/-- Claim C2 amended: `actualizar_pedido` returns whether some order has the
target id; when none has it the list is untouched; otherwise exactly the first
matching node is rewritten by `aplicarCampos`, which overwrites `cliente` and
`fecha` only when provided AND non-empty (a provided empty string is treated
like an absent field), overwrites `productos` whenever provided (an explicitly
empty list included), and leaves every absent field untouched — in particular
a client-only update leaves timestamp and line items unchanged. -/
theorem c2_update_amended (l : List NodoPedido) (k : Int) (c f : Option String)
    (p : Option (List CachedItem)) :
    ((actualizar_pedido l k c f p).1 = l.any fun n => decide (n.pedido_id = k)) ∧
    ((∀ n ∈ l, n.pedido_id ≠ k) → (actualizar_pedido l k c f p).2 = l) ∧
    (∀ l₁ n l₂, l = l₁ ++ n :: l₂ → (∀ m ∈ l₁, m.pedido_id ≠ k) → n.pedido_id = k →
      (actualizar_pedido l k c f p).2 = l₁ ++ aplicarCampos n c f p :: l₂) ∧
    (∀ n : NodoPedido,
      (aplicarCampos n c f p).pedido_id = n.pedido_id ∧
      (c = none → (aplicarCampos n c f p).cliente = n.cliente) ∧
      (c = some "" → (aplicarCampos n c f p).cliente = n.cliente) ∧
      (∀ s, c = some s → s ≠ "" → (aplicarCampos n c f p).cliente = s) ∧
      (f = none → (aplicarCampos n c f p).fecha = n.fecha) ∧
      (f = some "" → (aplicarCampos n c f p).fecha = n.fecha) ∧
      (∀ s, f = some s → s ≠ "" → (aplicarCampos n c f p).fecha = s) ∧
      (p = none → (aplicarCampos n c f p).productos = n.productos) ∧
      (∀ ps, p = some ps → (aplicarCampos n c f p).productos = ps)) := by
  refine ⟨actualizar_fst l k c f p, ?_, ?_, ?_⟩
  · intro h
    rw [actualizar_not_found l k c f p h]
  · intro l₁ n l₂ hdecomp h₁ h₂
    subst hdecomp
    rw [actualizar_found l₁ n l₂ k c f p h₁ h₂]
  · intro n
    refine ⟨rfl, ?_, ?_, ?_, ?_, ?_, ?_, ?_, ?_⟩
    · rintro rfl; rfl
    · rintro rfl; simp [aplicarCampos]
    · rintro s rfl hs; simp [aplicarCampos, hs]
    · rintro rfl; rfl
    · rintro rfl; simp [aplicarCampos]
    · rintro s rfl hs; simp [aplicarCampos, hs]
    · rintro rfl; rfl
    · rintro ps rfl; rfl

/-- Orders used by the C2 witness. -/
def pedidoW1 : NodoPedido := ⟨1, "Ana", "f1", []⟩

/-- Second order used by the C2 witness. -/
def pedidoW2 : NodoPedido := ⟨2, "Bob", "f2", []⟩

/-- Witness for C2 (amended): a client-only update of order 2 rewrites exactly
that node's client and nothing else. -/
theorem c2_witness :
    (actualizar_pedido [pedidoW1, pedidoW2] 2 (some "Eve") none none).2 =
      [pedidoW1, ⟨2, "Eve", "f2", []⟩] :=
  ((c2_update_amended [pedidoW1, pedidoW2] 2 (some "Eve") none none).2.2.1
    [pedidoW1] pedidoW2 [] rfl (by decide) rfl).trans (by decide)

/-! ### Claim C8: append order, removal, exclusion -/

/-- Order 10 of the concrete spec scenario. -/
def pedidoAna : NodoPedido := ⟨10, "Ana", "2025-12-08T14:00:00", []⟩

/-- Order 11 of the concrete spec scenario. -/
def pedidoBob : NodoPedido := ⟨11, "Bob", "2025-12-09T10:00:00", []⟩

/-- Claim C8: appended orders are listed in append order; after removing a
present order (identifiers being unique, the construction-policy precondition
the spec states), lookup misses it and the listing excludes exactly it; and
the concrete scenario: append 10 then 11 lists [10, 11], removing 10 lists
[11]. -/
theorem c8_sequence_order :
    (∀ xs : List NodoPedido,
      listar_pedidos (agregarTodos [] xs) = xs.map NodoPedido.toDict) ∧
    (∀ (xs : List NodoPedido) (k : Int), (xs.map (·.pedido_id)).Nodup →
      k ∈ xs.map (·.pedido_id) →
      (eliminar_pedido (agregarTodos [] xs) k).1 = true ∧
      buscar_pedido (eliminar_pedido (agregarTodos [] xs) k).2 k = none ∧
      listar_pedidos (eliminar_pedido (agregarTodos [] xs) k).2 =
        (xs.filter fun n => !decide (n.pedido_id = k)).map NodoPedido.toDict) ∧
    ((listar_pedidos (agregarTodos [] [pedidoAna, pedidoBob])).map (·.pedido_id)
        = [10, 11] ∧
     (listar_pedidos (eliminar_pedido (agregarTodos [] [pedidoAna, pedidoBob]) 10).2).map
        (·.pedido_id) = [11]) := by
  refine ⟨?_, ?_, by decide⟩
  · intro xs
    rw [agregarTodos_eq]
    simp [listar_pedidos]
  · intro xs k hnodup hk
    rw [agregarTodos_eq, List.nil_append]
    refine ⟨?_, ?_, ?_⟩
    · rw [eliminar_fst]
      rcases List.mem_map.1 hk with ⟨n, hn, rfl⟩
      exact List.any_eq_true.2 ⟨n, hn, by simp⟩
    · rw [eliminar_nodup xs k hnodup, buscar_pedido_eq_none_iff]
      intro n hn
      have hf := List.of_mem_filter hn
      simpa using hf
    · rw [eliminar_nodup xs k hnodup]
      rfl

/-- Witness for C8: removing order 10 from [10, 11] makes lookup miss it. -/
theorem c8_witness :
    buscar_pedido (eliminar_pedido (agregarTodos [] [pedidoAna, pedidoBob]) 10).2 10 = none :=
  ((c8_sequence_order.2.1 [pedidoAna, pedidoBob] 10 (by decide) (by decide)).2).1

/-! ### Claim C3: product creation validation -/

/-- A creation request whose body carries nombre, precio and stock but is
missing the `descripcion` key entirely. -/
def bodySinDescripcion : ProductBody := ⟨some (some "X"), some (some 10), none, some (some 5)⟩

/-- Claim C3 evidence: with `descripcion` absent from the request body,
`create_product` evaluates `body["descripcion"]` and raises an uncaught
KeyError (surfaced as an HTTP 500), never reaching the structured 400
"Faltan datos obligatorios" validation response its docstring documents for
missing obligatory data; the store and the resident index are untouched. -/
theorem c3_missing_field_keyerror :
    create_product bodySinDescripcion .leaf [] 1 =
      (.keyError "descripcion", .leaf, []) := by
  decide

/-! ### Claim C9: read-through lookup of an order -/

theorem buscar_pedido_append_single (l : List NodoPedido) (n : NodoPedido) (k : Int)
    (h : buscar_pedido l k = none) :
    buscar_pedido (l ++ [n]) k = if n.pedido_id = k then some n else none := by
  induction l with
  | nil => simp [buscar_pedido]
  | cons m rest ih =>
    rw [buscar_pedido] at h
    by_cases hm : m.pedido_id = k
    · rw [if_pos hm] at h
      cases h
    · rw [if_neg hm] at h
      simp only [List.cons_append, buscar_pedido, if_neg hm]
      exact ih h

theorem normalizarItem_obj (p : Producto) : normalizarItem (.obj p) = p := rfl

/-- Claim C9: when the first `get_pedido` call misses the cache, the second
consecutive call (same id, store and cache otherwise unchanged) returns the
identical response — same client, timestamp, line items and total (the sum of
price × quantity) — and when the order exists the second call is served from
the now-populated cache. -/
theorem c9_read_through_idempotent (cache : List NodoPedido) (s : Store) (pid : Int)
    (hmiss : buscar_pedido cache pid = none) :
    (get_pedido cache s pid).1 = (get_pedido (get_pedido cache s pid).2 s pid).1 ∧
    ((get_pedido cache s pid).1 ≠ .notFound →
      (buscar_pedido (get_pedido cache s pid).2 pid).isSome = true) := by
  cases hrow : s.pedidos.find? (fun r => r.pedido_id = pid) with
  | none =>
    have h1 : get_pedido cache s pid = (.notFound, cache) := by
      simp [get_pedido, hmiss, hrow]
    simp [h1]
  | some row =>
    have hpid : row.pedido_id = pid := by
      have h := List.find?_some hrow
      simpa using h
    have hP : ∀ X : List CachedItem,
        buscar_pedido (cache ++ [⟨row.pedido_id, row.cliente, row.fecha_pedido, X⟩]) pid =
          some ⟨row.pedido_id, row.cliente, row.fecha_pedido, X⟩ := by
      intro X
      rw [buscar_pedido_append_single cache _ pid hmiss]
      simp [hpid]
    constructor
    · simp [get_pedido, hmiss, hrow, agregar_pedido, hP, buscar_pedido, List.map_map,
        Function.comp_def, normalizarItem_obj]
    · simp [get_pedido, hmiss, hrow, agregar_pedido, hP]

/-- A concrete store for the C9 witness: order 7 by Ana with line items
(price 10, qty 2) and (price 5, qty 1), so the total must be 25 (the spec's
concrete total scenario). -/
def storeEjemplo : Store :=
  ⟨[⟨1, "Laptop", 10, "d", 5⟩, ⟨2, "Mouse", 5, "d", 7⟩],
   [⟨7, "Ana", "2025-12-08T14:00:00"⟩],
   [⟨7, 1, 2⟩, ⟨7, 2, 1⟩]⟩

/-- Witness for C9 at the concrete store: the two consecutive lookups of order
7 agree (the response carries total 10·2 + 5·1 = 25). -/
theorem c9_witness :
    (get_pedido [] storeEjemplo 7).1 =
      (get_pedido (get_pedido [] storeEjemplo 7).2 storeEjemplo 7).1 :=
  (c9_read_through_idempotent [] storeEjemplo 7 rfl).1

/-! ### Claim C10: update drops line items absent from the resident index -/

theorem aplicarCampos_productos_some (n : NodoPedido) (c f : Option String)
    (ps : List CachedItem) : (aplicarCampos n c f (some ps)).productos = ps := rfl

/-- The (producto_id, cantidad) pairs of a cached line-item list. -/
def itemPairs : List CachedItem → List (Int × Int) :=
  List.map fun it => match it with
    | .dict d => (d.producto_id, d.cantidad)
    | .obj p => (p.product_id, p.cantidad)

/-- The (producto_id, cantidad) pairs the store holds for one order. -/
def storePairs (s : Store) (pid : Int) : List (Int × Int) :=
  (s.pedido_productos.filter fun r => r.pedido_id = pid).map fun r =>
    (r.producto_id, r.cantidad)

theorem resolveItems_all_some (tree : NodoBST) (items : List ReqItem) :
    (∀ it ∈ items, it.producto_id.isSome = true) →
    resolveItems tree items = some (items.filterMap fun p =>
      (tree.buscar (p.producto_id.getD 0)).map fun prod =>
        CachedItem.dict ⟨p.producto_id.getD 0, prod.nombre, prod.precio,
          p.cantidad.getD 1⟩) := by
  induction items with
  | nil => intro _; rfl
  | cons p rest ih =>
    intro h
    rcases Option.isSome_iff_exists.1 (h p (by simp)) with ⟨i, hi⟩
    have hrest := ih fun it hit => h it (by simp [hit])
    cases hb : tree.buscar i with
    | none => simp [resolveItems, hi, buscarKey, hb, hrest, List.filterMap_cons]
    | some prod => simp [resolveItems, hi, buscarKey, hb, hrest, List.filterMap_cons]

theorem resolved_pairs_sublist (tree : NodoBST) (items : List ReqItem) :
    (itemPairs (items.filterMap fun p =>
      (tree.buscar (p.producto_id.getD 0)).map fun prod =>
        CachedItem.dict ⟨p.producto_id.getD 0, prod.nombre, prod.precio,
          p.cantidad.getD 1⟩)).Sublist
      (items.map fun p => (p.producto_id.getD 0, p.cantidad.getD 1)) := by
  induction items with
  | nil => simp [itemPairs]
  | cons p rest ih =>
    simp only [itemPairs] at ih ⊢
    cases hb : tree.buscar (p.producto_id.getD 0) with
    | none =>
      simp only [List.filterMap_cons, hb, Option.map_none', List.map_cons]
      exact List.Sublist.cons _ ih
    | some prod =>
      simp only [List.filterMap_cons, hb, Option.map_some', List.map_cons]
      exact List.Sublist.cons₂ _ ih

theorem resolved_pairs_length_lt (tree : NodoBST) (items : List ReqItem)
    (it0 : ReqItem) (i0 : Int) (hid : it0.producto_id = some i0)
    (hmiss : tree.buscar i0 = none) :
    it0 ∈ items →
    (items.filterMap fun p =>
      (tree.buscar (p.producto_id.getD 0)).map fun prod =>
        CachedItem.dict ⟨p.producto_id.getD 0, prod.nombre, prod.precio,
          p.cantidad.getD 1⟩).length < items.length := by
  induction items with
  | nil => intro hmem; cases hmem
  | cons p rest ih =>
    intro hmem
    rcases List.mem_cons.1 hmem with rfl | hmem2
    · simp only [List.filterMap_cons, hid, Option.getD_some, hmiss, Option.map_none',
        List.length_cons]
      exact Nat.lt_succ_of_le (List.length_filterMap_le _ _)
    · cases hb : tree.buscar (p.producto_id.getD 0) with
      | none =>
        simp only [List.filterMap_cons, hb, Option.map_none', List.length_cons]
        exact Nat.lt_succ_of_lt (ih hmem2)
      | some prod =>
        simp only [List.filterMap_cons, hb, Option.map_some', List.length_cons]
        exact Nat.succ_lt_succ (ih hmem2)

theorem filter_not_filter_nil (old : List LineItemRow) (pid : Int) :
    (old.filter fun r => !(r.pedido_id = pid)).filter (fun r => r.pedido_id = pid) = [] := by
  induction old with
  | nil => rfl
  | cons r rest ih =>
    by_cases h : r.pedido_id = pid
    · simp [List.filter_cons, h, ih]
    · simp [List.filter_cons, h, ih]

theorem newRows_pairs (pid : Int) (items : List ReqItem) :
    (∀ it ∈ items, it.producto_id.isSome = true) →
    ((items.filterMap fun p =>
        p.producto_id.map fun i => (⟨pid, i, p.cantidad.getD 1⟩ : LineItemRow)).filter
      (fun r => r.pedido_id = pid)).map (fun r => (r.producto_id, r.cantidad)) =
      items.map fun p => (p.producto_id.getD 0, p.cantidad.getD 1) := by
  induction items with
  | nil => intro _; rfl
  | cons p rest ih =>
    intro h
    rcases Option.isSome_iff_exists.1 (h p (by simp)) with ⟨i, hi⟩
    have hrest := ih fun it hit => h it (by simp [hit])
    simp [List.filterMap_cons, hi, List.filter_cons, hrest]

/-- Claim C10: when `update_pedido` goes through (valid client and date, the
target order resident in the cache) and some provided line item's producto_id
is absent from the resident ProductIndex, that item is written to the store's
line-item table but silently dropped from the list cached for the order, so
the cached order's (producto_id, cantidad) pairs form a strict subset (here a
proper sublist) of the pairs the store persists for that order. -/
theorem c10_update_cache_strict_subset
    (fromiso : String → Option String) (tree : NodoBST) (cache : List NodoPedido)
    (store : Store) (pid : Int) (cliente fecha : Option String)
    (productos : List ReqItem) (d : String) (it0 : ReqItem) (i0 : Int)
    (n0 : NodoPedido)
    (hall : ∀ it ∈ productos, it.producto_id.isSome = true)
    (hmem : it0 ∈ productos) (hid : it0.producto_id = some i0)
    (hmiss : tree.buscar i0 = none)
    (hc : truthyOpt cliente = true) (hf : truthyOpt fecha = true)
    (hparse : fromiso (fecha.getD "") = some d)
    (hcache : buscar_pedido cache pid = some n0) :
    ∃ cache' store',
      update_pedido fromiso tree cache store pid cliente fecha productos =
        some (.ok, cache', store') ∧
      ∃ node, buscar_pedido cache' pid = some node ∧
        (itemPairs node.productos).Sublist (storePairs store' pid) ∧
        itemPairs node.productos ≠ storePairs store' pid := by
  have hne : productos ≠ [] := List.ne_nil_of_mem hmem
  have hempty : productos.isEmpty = false := by
    cases productos with
    | nil => exact absurd rfl hne
    | cons a l => rfl
  have hres := resolveItems_all_some tree productos hall
  have hupd : update_pedido fromiso tree cache store pid cliente fecha productos =
      some (.ok,
        (actualizar_pedido cache pid cliente (some d)
          (some (productos.filterMap fun p =>
            (tree.buscar (p.producto_id.getD 0)).map fun prod =>
              CachedItem.dict ⟨p.producto_id.getD 0, prod.nombre, prod.precio,
                p.cantidad.getD 1⟩))).2,
        ⟨store.productos,
         store.pedidos.map fun r =>
           if r.pedido_id = pid then
             { r with cliente := cliente.getD "", fecha_pedido := d }
           else r,
         (store.pedido_productos.filter fun r => !(r.pedido_id = pid)) ++
           productos.filterMap fun p =>
             p.producto_id.map fun i => ⟨pid, i, p.cantidad.getD 1⟩⟩) := by
    simp [update_pedido, hc, hf, hparse, hres, hempty]
  refine ⟨_, _, hupd, ?_⟩
  have hsp : storePairs
      ⟨store.productos,
       store.pedidos.map fun r =>
         if r.pedido_id = pid then
           { r with cliente := cliente.getD "", fecha_pedido := d }
         else r,
       (store.pedido_productos.filter fun r => !(r.pedido_id = pid)) ++
         productos.filterMap fun p =>
           p.producto_id.map fun i => ⟨pid, i, p.cantidad.getD 1⟩⟩ pid =
      productos.map fun p => (p.producto_id.getD 0, p.cantidad.getD 1) := by
    simp only [storePairs]
    rw [List.filter_append, filter_not_filter_nil, List.nil_append]
    exact newRows_pairs pid productos hall
  refine ⟨aplicarCampos n0 cliente (some d) (some _),
    buscar_actualizar cache pid cliente (some d) (some _) n0 hcache, ?_, ?_⟩
  · rw [aplicarCampos_productos_some, hsp]
    exact resolved_pairs_sublist tree productos
  · rw [aplicarCampos_productos_some, hsp]
    intro hcontr
    have hlen := congrArg List.length hcontr
    simp only [itemPairs, List.length_map] at hlen
    have hlt := resolved_pairs_length_lt tree productos it0 i0 hid hmiss hmem
    omega

/-- The cache used by the C10 witness: order 5 is resident. -/
def cacheW : List NodoPedido := [⟨5, "Ana", "F", []⟩]

/-- The request line items of the C10 witness: one item whose producto_id 9 is
absent from the (empty) resident index. -/
def itemsW : List ReqItem := [⟨some 9, some 2⟩]

/-- Witness for C10: updating resident order 5 with a line item whose product
9 is unknown to the index persists the row yet caches strictly fewer pairs. -/
theorem c10_witness :
    ∃ cache' store',
      update_pedido (fun s => some s) NodoBST.leaf cacheW ⟨[], [], []⟩ 5
        (some "Bob") (some "2025-12-10T00:00:00") itemsW = some (.ok, cache', store') ∧
      ∃ node, buscar_pedido cache' 5 = some node ∧
        (itemPairs node.productos).Sublist (storePairs store' 5) ∧
        itemPairs node.productos ≠ storePairs store' 5 :=
  c10_update_cache_strict_subset (fun s => some s) .leaf cacheW ⟨[], [], []⟩ 5
    (some "Bob") (some "2025-12-10T00:00:00") itemsW "2025-12-10T00:00:00"
    ⟨some 9, some 2⟩ 9 ⟨5, "Ana", "F", []⟩ (by decide) (by decide) rfl rfl
    (by decide) (by decide) rfl rfl
